import Mathlib

/-!
Verification of the shiok-scout feature-engineering pipeline.

This file gives a shallow embedding of the geospatial feature-engineering and
scoring pipeline of the repository:

* `preprocess_data` embeds `src/model/preprocessing.py :: preprocess_data`
  (chain heuristic, hawker-centre proximity, cluster density, the five
  hard-coded coordinate fixes, planning-area resolution with the tiered
  nearest-neighbour fallback, the "Outside Singapore" fill and the hard
  latitude cutoff);
* `load_data` embeds the data-loading stage of `src/app/main.py :: load_data`
  (geometry override from the url-extracted pin coordinate, the Singapore
  bounding-box filter, and the sort-by-reviews / drop-duplicates-by-name
  deduplication, which is also the deduplication of
  `src/model/deduce_cuisine.py :: main`);
* `get_marker_color_rgb` and `badgeLabel` embed the marker-colour and tooltip
  badge functions of `src/app/main.py`.

Modelling conventions:

* Coordinates are rational numbers.  The projection from geographic
  (EPSG:4326) to projected metric (EPSG:3414) coordinates performed by
  `to_crs` is an external GIS transformation and is passed in as an abstract
  function `proj : GeoPt → Pt`.
* All planar distances in the source are Euclidean metres; the embedding
  carries squared distances so that every comparison stays inside `ℚ`.
  Accordingly every metric threshold appears squared: 50 m → 2500, 100 m →
  10000, 200 m → 40000, 2000 m → 4000000.  The `9999.0` sentinel that the
  source writes into the `dist_to_hawker` column when the hawker reference is
  empty is kept verbatim (its only role in the source is to be a sentinel).
* A planning-area polygon is external vector data; a `Zone` abstracts it by
  its point-in-polygon test (`containsGeo`, geographic frame, used by
  `gpd.sjoin(..., predicate='within')`) and its squared distance function
  (`sqDistProj`, projected frame, used by `gpd.sjoin_nearest`).  Reference
  planning areas are pairwise disjoint polygons, so at most one zone contains
  a point and the left `sjoin` yields exactly one output row per input row;
  this is modelled by `List.find?`.
* The pin coordinate that `load_data` recovers from the `url` column with a
  regular expression is modelled by its result: an optional `(lat, lon)` pair
  carried on each record (`actualCoord`).
* `print` output of `preprocess_data` is modelled by the `log` field of its
  result, one string per executed `print` call.
* `df.sort_values('review_count', ascending=False)` uses pandas' default
  `kind='quicksort'`, which is not stable: it guarantees a descending order
  but no particular order among rows tying on `review_count`.  Its faithful
  model is therefore the relation `SortValuesDescSpec` (output is a
  descending reordering of the input); the executable `sortByReviews` fixes
  one admissible outcome so the pipeline stays runnable, and no
  tie-order-dependent property is proved from that choice.
* Model training (`train.py`) only appends `predicted_rating`/`residual`
  columns; it drops no row and rewrites none of the fields modelled here, so
  the composed pipeline `preprocess_data` → `load_data` is modelled directly.
-/

namespace ShiokScout

/-- Projected planar point (EPSG:3414 metric coordinates). -/
structure Pt where
  x : ℚ
  y : ℚ
deriving DecidableEq

/-- Geographic point (EPSG:4326 longitude/latitude), the frame of the
`geometry` column built by `gpd.points_from_xy(df.longitude, df.latitude)`. -/
structure GeoPt where
  lon : ℚ
  lat : ℚ
deriving DecidableEq

/-- Squared Euclidean distance between two projected points (m²). -/
def sqDist (p q : Pt) : ℚ :=
  (p.x - q.x) * (p.x - q.x) + (p.y - q.y) * (p.y - q.y)

/-- Boolean test that `pat` starts the list `s` (character-wise). -/
def leadsWith : List Char → List Char → Bool
  | [], _ => true
  | _ :: _, [] => false
  | c :: cs, d :: ds => c == d && leadsWith cs ds

/-- Boolean substring test on character lists. -/
def hasSub (pat : List Char) (s : List Char) : Bool :=
  match s with
  | [] => pat.isEmpty
  | _ :: rest => leadsWith pat s || hasSub pat rest

/-- Case-insensitive substring test: models
`Series.str.contains(pat, case=False, na=False)` for the literal
(regex-metacharacter-free) patterns used in `preprocess_data`. -/
def containsCI (name pat : String) : Bool :=
  hasSub (pat.data.map Char.toLower) (name.data.map Char.toLower)

/-- The five "Manual Coordinate Fixes" of `preprocess_data`
(`preprocessing.py` lines 88–125): name substring, fixed latitude, fixed
longitude. -/
def coordFixes : List (String × ℚ × ℚ) :=
  [("Luss Restaurant", 1.2915, 103.7925),
   ("9 Plus Bistro", 1.2830, 103.7810),
   ("Wu You Eating Place", 1.3130, 103.8610),
   ("Oasis Hideout", 1.3050, 103.7800),
   ("L Bistro", 1.3330, 103.7430)]

/-- Apply the five coordinate-fix masks in source order to one record; a later
matching mask overwrites an earlier one and a record matching no mask keeps
its coordinates.  Returns `(latitude, longitude)`. -/
def applyFixes (name : String) (lat lon : ℚ) : ℚ × ℚ :=
  coordFixes.foldl (fun c f => if containsCI name f.1 then (f.2.1, f.2.2) else c) (lat, lon)

/-- A named administrative zone of the planning-area reference file,
abstracted by its point-in-polygon test (geographic frame) and its squared
distance to the polygon (projected frame). -/
structure Zone where
  name : String
  containsGeo : GeoPt → Bool
  sqDistProj : Pt → ℚ

/-- Nearest zone to a projected point: first zone attaining the minimal
distance (ties keep the earliest zone, matching the
`~index.duplicated(keep='first')` deduplication after `sjoin_nearest`). -/
def nearestZone (zs : List Zone) (p : Pt) : Option Zone :=
  zs.foldl
    (fun acc z =>
      match acc with
      | none => some z
      | some b => if z.sqDistProj p < b.sqDistProj p then some z else acc)
    none

/-- `sjoin_nearest(..., max_distance=d)`: the name of the nearest zone provided
it lies within the (squared) distance bound, otherwise no match. -/
def nearestWithin (zs : List Zone) (p : Pt) (maxSq : ℚ) : Option String :=
  match nearestZone zs p with
  | none => none
  | some z => if z.sqDistProj p ≤ maxSq then some z.name else none

/-- Planning-area resolution for one record (`preprocessing.py` lines
133–230): exact containment join first; records left unresolved are split at
latitude 1.44 into the border band (tight 100 m buffer) and the mainland
(generous 2000 m buffer); anything still unresolved is filled with the
"Outside Singapore" sentinel. -/
def resolveArea (zs : List Zone) (geo : GeoPt) (p : Pt) (lat : ℚ) : String :=
  match zs.find? (fun z => z.containsGeo geo) with
  | some z => z.name
  | none =>
    match (if lat > 1.44 then nearestWithin zs p 10000 else nearestWithin zs p 4000000) with
    | some n => n
    | none => "Outside Singapore"

/-- Raw scraped listing as fed to `preprocess_data` by `train.py` (the fields
the modelled pipeline reads; `actualCoord` is the optional pin coordinate
`(lat, lon)` that the front end later recovers from the `url` column). -/
structure Listing where
  name : String
  latitude : ℚ
  longitude : ℚ
  rating : ℚ
  review_count : ℕ
  actualCoord : Option (ℚ × ℚ)
deriving DecidableEq

/-- A processed record: the listing columns plus the feature columns built by
`preprocess_data`. -/
structure Row where
  name : String
  latitude : ℚ
  longitude : ℚ
  rating : ℚ
  review_count : ℕ
  actualCoord : Option (ℚ × ℚ)
  geometry : GeoPt
  is_chain : Bool
  dist_to_hawker : ℚ
  is_hawker : Bool
  cluster_density : ℤ
  planning_area : Option String
deriving DecidableEq

/-- Minimal squared distance from `p` to a non-empty list of projected points
(the `BallTree(...).query(..., k=1)` nearest-neighbour distance, squared). -/
def minSqDistTo (hawkers : List Pt) (p : Pt) : ℚ :=
  match hawkers with
  | [] => 0
  | q :: rest => rest.foldl (fun acc r => min acc (sqDist r p)) (sqDist q p)

/-- Cluster density of a point: the `query_radius(r=200, count_only=True)`
count over all restaurant coordinates, minus one for the point itself
(`preprocessing.py` lines 68–72). -/
def clusterDensity (coords : List Pt) (p : Pt) : ℤ :=
  ((coords.filter (fun q => decide (sqDist q p ≤ 40000))).length : ℤ) - 1

/-- Feature construction for one listing, before the planning-area step:
geometry from (longitude, latitude), the chain heuristic (name occurs more
than twice in the corpus), hawker proximity (empty reference degrades to
`9999.0` / `False`; otherwise distance to the nearest hawker centroid with the
50 m adjacency threshold), and cluster density over the full (pre-dedup)
corpus coordinates. -/
def baseRow (names : List String) (coords : List Pt) (hawkers : List Pt)
    (proj : GeoPt → Pt) (l : Listing) : Row :=
  let p := proj ⟨l.longitude, l.latitude⟩
  { name := l.name
    latitude := l.latitude
    longitude := l.longitude
    rating := l.rating
    review_count := l.review_count
    actualCoord := l.actualCoord
    geometry := ⟨l.longitude, l.latitude⟩
    is_chain := decide (names.count l.name > 2)
    dist_to_hawker := if hawkers.isEmpty then 9999 else minSqDistTo hawkers p
    is_hawker := if hawkers.isEmpty then false else decide (minSqDistTo hawkers p < 2500)
    cluster_density := clusterDensity coords p
    planning_area := none }

/-- The coordinate-fix step applied to one record: latitude, longitude and
geometry are rewritten together (`preprocessing.py` lines 88–125). -/
def applyFixRow (r : Row) : Row :=
  let c := applyFixes r.name r.latitude r.longitude
  { r with latitude := c.1, longitude := c.2, geometry := ⟨c.2, c.1⟩ }

/-- Planning-area assignment for one record: tiered resolution with sentinel
fill, then the hard latitude cutoff (`latitude > 1.47` forces the
"Outside Singapore" sentinel regardless of the resolution outcome,
`preprocessing.py` lines 229–239). -/
def assignArea (proj : GeoPt → Pt) (zs : List Zone) (r : Row) : Row :=
  let pa := resolveArea zs r.geometry (proj r.geometry) r.latitude
  { r with planning_area := some (if r.latitude > 1.47 then "Outside Singapore" else pa) }

/-- Result of `preprocess_data`: the processed records and the printed log. -/
structure PreprocessOut where
  rows : List Row
  log : List String
deriving DecidableEq

/-- The `print` calls executed inside the planning-area block, in source
order (`preprocessing.py` lines 168, 194, 213). -/
def preprocessLog (zs : List Zone) (rows1 : List Row) : List String :=
  let unresolved := rows1.filter (fun r => (zs.find? (fun z => z.containsGeo r.geometry)).isNone)
  let border := unresolved.filter (fun r => decide (r.latitude > 1.44))
  let mainland := unresolved.filter (fun r => !(decide (r.latitude > 1.44)))
  (if unresolved.isEmpty then [] else
    ["Found " ++ toString unresolved.length ++
      " locations outside exact planning areas. Attempting nearest match..."] ++
    (if border.isEmpty then [] else
      ["Matching " ++ toString border.length ++ " border points with 100m buffer..."]) ++
    (if mainland.isEmpty then [] else
      ["Matching " ++ toString mainland.length ++ " mainland points with 2000m buffer..."]))

/-- Shallow embedding of `preprocessing.py :: preprocess_data`.  Hawker
centroids are given in the projected frame (the source reprojects them before
querying).  When no planning-area reference is supplied the `planning_area`
column degrades to the constant `"Unknown"`; otherwise the coordinate fixes
run, then the tiered resolution, the sentinel fill and the hard cutoff. -/
def preprocess_data (proj : GeoPt → Pt) (listings : List Listing)
    (hawkers : List Pt) (planning_areas : Option (List Zone)) : PreprocessOut :=
  let names := listings.map (fun l => l.name)
  let coords := listings.map (fun l => proj ⟨l.longitude, l.latitude⟩)
  let base := listings.map (baseRow names coords hawkers proj)
  match planning_areas with
  | none =>
    { rows := base.map (fun r => { r with planning_area := some "Unknown" })
      log := ["Preprocessing data...", "Preprocessing complete."] }
  | some zs =>
    let rows1 := base.map applyFixRow
    { rows := rows1.map (assignArea proj zs)
      log := ["Preprocessing data..."] ++ preprocessLog zs rows1 ++ ["Preprocessing complete."] }

/-- Geometry override of `load_data`: where a pin coordinate was recovered
from the url, the geometry becomes `Point(actual_lon, actual_lat)` (the
latitude/longitude columns are not touched). -/
def overrideGeom (r : Row) : Row :=
  match r.actualCoord with
  | some c => { r with geometry := { lon := c.2, lat := c.1 } }
  | none => r

/-- The Singapore bounding box of `load_data`:
latitude 1.15–1.48, longitude 103.6–104.05, tested on the geometry column. -/
def inBBox (g : GeoPt) : Bool :=
  decide (1.15 ≤ g.lat) && decide (g.lat ≤ 1.48) &&
  decide (103.6 ≤ g.lon) && decide (g.lon ≤ 104.05)

/-- Stable insertion into a list sorted by descending `review_count`; an
element is placed before every element it ties with that came later. -/
def insertRow (r : Row) : List Row → List Row
  | [] => [r]
  | b :: rest =>
    if r.review_count < b.review_count then b :: insertRow r rest else r :: b :: rest

/-- One admissible outcome of
`df.sort_values('review_count', ascending=False)`, used to keep the pipeline
executable.  The source uses pandas' default `kind='quicksort'`, which is NOT
stable: it guarantees only a descending order and leaves the relative order of
tied keys unspecified.  This executable model happens to pick the stable
outcome; any property that depends on the order of tied keys must therefore be
settled against the relational specification `SortValuesDescSpec` (which every
quicksort outcome satisfies), never against this particular choice. -/
def sortByReviews : List Row → List Row
  | [] => []
  | r :: rest => insertRow r (sortByReviews rest)

/-- `df.drop_duplicates(subset=['name'], keep='first')`: keep the first
occurrence of every name. -/
def dedupGo (seen : List String) : List Row → List Row
  | [] => []
  | r :: rest =>
    if r.name ∈ seen then dedupGo seen rest else r :: dedupGo (r.name :: seen) rest

/-- Deduplication used by `load_data` and by `deduce_cuisine.py :: main`:
sort by `review_count` descending, then drop duplicate names keeping the
first. -/
def dedupByName (rs : List Row) : List Row :=
  dedupGo [] (sortByReviews rs)

/-- Shallow embedding of the data-loading stage of `app/main.py :: load_data`:
url-derived geometry override, bounding-box filter, then deduplication. -/
def load_data (rows : List Row) : List Row :=
  dedupByName ((rows.map overrideGeom).filter (fun r => inBBox r.geometry))

/-- The end-to-end path a record takes from raw scrape to the front end:
`preprocess_data` (run by `train.py` on the raw, not-yet-deduplicated corpus)
followed by `load_data` (run by the app on the saved scored frame). -/
def pipeline (proj : GeoPt → Pt) (listings : List Listing) (hawkers : List Pt)
    (planning_areas : Option (List Zone)) : List Row :=
  load_data (preprocess_data proj listings hawkers planning_areas).rows

/-- Marker colour of `app/main.py :: get_marker_color_rgb` ([R, G, B, A]). -/
def get_marker_color_rgb (residual : ℚ) : List ℕ :=
  if residual ≥ 0.5 then [42, 157, 143, 200]
  else if residual > 0.0 then [233, 196, 106, 200]
  else if residual > -0.5 then [244, 162, 97, 200]
  else [231, 111, 81, 200]

/-- The tooltip badge of `app/main.py` (line 406): the lambda produces
`"Underrated +{x:.2f}"` for `x >= 0` and `"Overrated {x:.2f}"` otherwise; the
discrete label is modelled, the two-decimal number rendering is not. -/
def badgeLabel (residual : ℚ) : String :=
  if residual ≥ 0 then "Underrated" else "Overrated"

/-- The four value tiers of spec §4.6. -/
inductive Tier where
  | gem
  | fairAbove
  | fairBelow
  | overvalued
deriving DecidableEq

/-- Modelled from the spec: the §4.6 tiering table (residual ≥ 0.5 → Gem;
0 < residual < 0.5 → fair value above expectation; −0.5 < residual ≤ 0 →
fair value below expectation; residual ≤ −0.5 → Overvalued). -/
def specTier (residual : ℚ) : Tier :=
  if residual ≥ 0.5 then .gem
  else if residual > 0.0 then .fairAbove
  else if residual > -0.5 then .fairBelow
  else .overvalued

/-- Colour attached to each §4.6 tier (the four constant [R, G, B, A] values
of `get_marker_color_rgb`). -/
def tierColor : Tier → List ℕ
  | .gem => [42, 157, 143, 200]
  | .fairAbove => [233, 196, 106, 200]
  | .fairBelow => [244, 162, 97, 200]
  | .overvalued => [231, 111, 81, 200]

/-- Descending sortedness by `review_count`. -/
def SortedDesc (L : List Row) : Prop :=
  L.Pairwise (fun a b => b.review_count ≤ a.review_count)

/-- Maximum `review_count` over a list of rows (0 on the empty list). -/
def maxReviews (g : List Row) : ℕ :=
  g.foldr (fun r acc => max r.review_count acc) 0

/-- Everything `df.sort_values('review_count', ascending=False)` with the
default `kind='quicksort'` guarantees about its output: a reordering of the
input that is descending in `review_count`.  The order of rows that tie on
`review_count` is unspecified (numpy's introsort is not stable), so every
`out` satisfying this relation is an admissible result of the sort step. -/
def SortValuesDescSpec (rs out : List Row) : Prop :=
  out.Perm rs ∧ SortedDesc out

/-- Identity-like projection for concrete scenarios (projected coordinates
numerically equal to the geographic ones). -/
def projId : GeoPt → Pt := fun g => { x := g.lon, y := g.lat }

/-- A zone named "X" containing every point (scenario zone). -/
def zoneX : Zone :=
  { name := "X", containsGeo := fun _ => true, sqDistProj := fun _ => 0 }

/-- A zone containing no point and far (10 km, squared) from every point. -/
def zoneFar : Zone :=
  { name := "Z", containsGeo := fun _ => false, sqDistProj := fun _ => 100000000 }

/-- A zone containing no point, 1 km (squared) from every point: beyond the
100 m border buffer but within the 2000 m mainland buffer. -/
def zoneNear : Zone :=
  { name := "N", containsGeo := fun _ => false, sqDistProj := fun _ => 1000000 }

/-- Concrete listing constructor for scenarios (rating 4, no url pin). -/
def mkListing (n : String) (lat lon : ℚ) (rc : ℕ) : Listing :=
  { name := n, latitude := lat, longitude := lon, rating := 4
    review_count := rc, actualCoord := none }

/-- Spec scenario 1: listings "A", "A", "B" with review counts 10, 50, 5, all
at the single geographic point (lon, lat). -/
def scenarioAt (lo la : ℚ) : List Listing :=
  [mkListing "A" la lo 10, mkListing "A" la lo 50, mkListing "B" la lo 5]

/-- Projection of a processed row onto the fields scenario 1 talks about:
name, review count, planning area, cluster density. -/
def rowView (r : Row) : String × ℕ × Option String × ℤ :=
  (r.name, r.review_count, r.planning_area, r.cluster_density)

/-- Concrete processed record for deduplication scenarios. -/
def mkRow (n : String) (lat : ℚ) (rc : ℕ) : Row :=
  { name := n, latitude := lat, longitude := 103.8, rating := 4, review_count := rc
    actualCoord := none, geometry := ⟨103.8, lat⟩, is_chain := false
    dist_to_hawker := 9999, is_hawker := false, cluster_density := 0
    planning_area := some "X" }

theorem sqDist_self (p : Pt) : sqDist p p = 0 := by
  simp [sqDist]

theorem assignArea_latitude (proj : GeoPt → Pt) (zs : List Zone) (r : Row) :
    (assignArea proj zs r).latitude = r.latitude := rfl

/-- Claim C8: the cluster density of an existing restaurant grows by exactly
one when a new restaurant is appended strictly within 200 m of it (squared
distance < 40000), and is unchanged when the new restaurant is farther than
200 m away. -/
theorem cluster_density_monotone (coords : List Pt) (p q : Pt) (hp : p ∈ coords) :
    (sqDist q p < 40000 → clusterDensity (coords ++ [q]) p = clusterDensity coords p + 1) ∧
    (40000 < sqDist q p → clusterDensity (coords ++ [q]) p = clusterDensity coords p) := by
  have hmem : p ∈ coords := hp
  clear hmem
  constructor
  · intro h
    unfold clusterDensity
    rw [List.filter_append]
    have hq : (List.filter (fun x => decide (sqDist x p ≤ 40000)) [q]) = [q] := by
      simp [List.filter, le_of_lt h]
    rw [hq, List.length_append, List.length_singleton]
    push_cast
    ring
  · intro h
    unfold clusterDensity
    rw [List.filter_append]
    have hq : (List.filter (fun x => decide (sqDist x p ≤ 40000)) [q]) = [] := by
      simp [List.filter, not_le.mpr h]
    rw [hq, List.append_nil]

theorem cluster_density_monotone_witness :
    clusterDensity ([Pt.mk 0 0, Pt.mk 300 0] ++ [Pt.mk 100 0]) (Pt.mk 0 0) =
      clusterDensity [Pt.mk 0 0, Pt.mk 300 0] (Pt.mk 0 0) + 1 ∧
    clusterDensity ([Pt.mk 0 0, Pt.mk 300 0] ++ [Pt.mk 900 0]) (Pt.mk 0 0) =
      clusterDensity [Pt.mk 0 0, Pt.mk 300 0] (Pt.mk 0 0) :=
  ⟨(cluster_density_monotone [Pt.mk 0 0, Pt.mk 300 0] (Pt.mk 0 0) (Pt.mk 100 0)
      (by simp)).1 (by norm_num [sqDist]),
   (cluster_density_monotone [Pt.mk 0 0, Pt.mk 300 0] (Pt.mk 0 0) (Pt.mk 900 0)
      (by simp)).2 (by norm_num [sqDist])⟩

/-- Claim C5: any processed record whose latitude (at resolution time, i.e.
after the hard-coded coordinate fixes) exceeds the hard cutoff 1.47 leaves
`preprocess_data` with the "Outside Singapore" sentinel, regardless of the
containment and nearest-zone results. -/
theorem hard_cutoff_forces_outside (proj : GeoPt → Pt) (listings : List Listing)
    (hawkers : List Pt) (zs : List Zone) (r : Row)
    (hr : r ∈ (preprocess_data proj listings hawkers (some zs)).rows)
    (hlat : r.latitude > 1.47) :
    r.planning_area = some "Outside Singapore" := by
  simp only [preprocess_data] at hr
  rcases List.mem_map.mp hr with ⟨s, _, rfl⟩
  rw [assignArea_latitude] at hlat
  simp [assignArea, if_pos hlat]

theorem hard_cutoff_forces_outside_witness :
    ((preprocess_data projId [mkListing "Far" 1.6 103.8 7] [] (some [zoneX])).rows.get
      ⟨0, by decide⟩).planning_area = some "Outside Singapore" :=
  hard_cutoff_forces_outside projId [mkListing "Far" 1.6 103.8 7] [] [zoneX] _
    (List.get_mem _ _ _) (by show (1.6 : ℚ) > 1.47; norm_num)

/-- Claim C6: every record leaving `preprocess_data` carries a non-null
planning area (a zone name, the "Outside Singapore" sentinel, or "Unknown"
when no zone reference is supplied). -/
theorem planning_area_total (proj : GeoPt → Pt) (listings : List Listing)
    (hawkers : List Pt) (planning_areas : Option (List Zone)) (r : Row)
    (hr : r ∈ (preprocess_data proj listings hawkers planning_areas).rows) :
    r.planning_area.isSome = true := by
  cases planning_areas with
  | none =>
    simp only [preprocess_data] at hr
    rcases List.mem_map.mp hr with ⟨s, _, rfl⟩
    rfl
  | some zs =>
    simp only [preprocess_data] at hr
    rcases List.mem_map.mp hr with ⟨s, _, rfl⟩
    rfl

theorem planning_area_total_witness :
    ((preprocess_data projId [mkListing "L0" 1.3 103.8 7] [] none).rows.get
      ⟨0, by decide⟩).planning_area.isSome = true :=
  planning_area_total projId [mkListing "L0" 1.3 103.8 7] [] none _ (List.get_mem _ _ _)

/-- Claim C7: a record not resolved by exact containment is matched to the
nearest zone under the tier picked by the 1.44 latitude split — within 100 m
(squared: 10000) above the split, within 2000 m (squared: 4000000) at or
below it — and receives the "Outside Singapore" sentinel when the nearest
zone is farther than its tier's bound. -/
theorem fallback_tiers (zs : List Zone) (geo : GeoPt) (p : Pt) (lat : ℚ) (z : Zone)
    (hun : zs.find? (fun w => w.containsGeo geo) = none)
    (hnz : nearestZone zs p = some z) :
    resolveArea zs geo p lat =
      if lat > 1.44 then
        (if z.sqDistProj p ≤ 10000 then z.name else "Outside Singapore")
      else
        (if z.sqDistProj p ≤ 4000000 then z.name else "Outside Singapore") := by
  simp only [resolveArea, hun, nearestWithin, hnz]
  by_cases hb : lat > 1.44
  · simp only [if_pos hb]
    by_cases hd : z.sqDistProj p ≤ 10000
    · simp [if_pos hd]
    · simp [if_neg hd]
  · simp only [if_neg hb]
    by_cases hd : z.sqDistProj p ≤ 4000000
    · simp [if_pos hd]
    · simp [if_neg hd]

theorem fallback_tiers_witness :
    resolveArea [zoneNear] (GeoPt.mk 103.8 1.45) (Pt.mk 103.8 1.45) 1.45 =
      "Outside Singapore" ∧
    resolveArea [zoneNear] (GeoPt.mk 103.8 1.2) (Pt.mk 103.8 1.2) 1.2 = "N" := by
  constructor
  · have h := fallback_tiers [zoneNear] (GeoPt.mk 103.8 1.45) (Pt.mk 103.8 1.45) 1.45
      zoneNear rfl rfl
    rw [h]
    norm_num [zoneNear]
  · have h := fallback_tiers [zoneNear] (GeoPt.mk 103.8 1.2) (Pt.mk 103.8 1.2) 1.2
      zoneNear rfl rfl
    rw [h]
    norm_num [zoneNear]

/-- Claim C3 (counterexample): the residuals 0 and −0.2 lie in the same §4.6
tier (fair value, below expectation: −0.5 < residual ≤ 0), yet the tooltip
badge function labels them differently ("Underrated" versus "Overrated"), so
the badge text is not computed via the §4.6 thresholds. -/
theorem badge_not_from_tiers :
    specTier 0 = specTier (-0.2) ∧ badgeLabel 0 ≠ badgeLabel (-0.2) := by
  constructor
  · norm_num [specTier]
  · have h1 : badgeLabel 0 = "Underrated" := by norm_num [badgeLabel]
    have h2 : badgeLabel (-0.2) = "Overrated" := by norm_num [badgeLabel]
    rw [h1, h2]
    decide

/-- Claim C3 (amended): the marker colour function reproduces the §4.6
thresholds exactly — it factors through the tier of the residual, with the
boundary conditions of the table — while the human-readable badge only splits
at 0 (residual ≥ 0 → "Underrated", otherwise "Overrated") and does not
reproduce the ±0.5 boundaries. -/
theorem marker_color_follows_tiers (r : ℚ) :
    get_marker_color_rgb r = tierColor (specTier r) ∧
    badgeLabel r = (if 0 ≤ r then "Underrated" else "Overrated") := by
  constructor
  · unfold get_marker_color_rgb specTier tierColor
    split_ifs <;> rfl
  · rfl

theorem marker_color_follows_tiers_witness :
    get_marker_color_rgb 0.7 = [42, 157, 143, 200] ∧ badgeLabel 0.7 = "Underrated" := by
  constructor
  · exact (marker_color_follows_tiers 0.7).1.trans (by norm_num [specTier, tierColor])
  · exact (marker_color_follows_tiers 0.7).2.trans (by norm_num)

/-- Claim C9 (amended, part): with an empty facility reference every processed
record gets the constant defaults `dist_to_hawker = 9999.0` and
`is_hawker = False`, and with no zone reference every record gets the constant
`planning_area = "Unknown"`; `preprocess_data` is total, so it never
aborts. -/
theorem missing_reference_defaults (proj : GeoPt → Pt) (listings : List Listing)
    (planning_areas : Option (List Zone)) :
    (∀ r ∈ (preprocess_data proj listings [] planning_areas).rows,
      r.dist_to_hawker = 9999 ∧ r.is_hawker = false) ∧
    (∀ r ∈ (preprocess_data proj listings [] none).rows,
      r.planning_area = some "Unknown") := by
  constructor
  · intro r hr
    cases planning_areas with
    | none =>
      simp only [preprocess_data] at hr
      rcases List.mem_map.mp hr with ⟨s, hs, rfl⟩
      rcases List.mem_map.mp hs with ⟨l, _, rfl⟩
      exact ⟨rfl, rfl⟩
    | some zs =>
      simp only [preprocess_data] at hr
      rcases List.mem_map.mp hr with ⟨s, hs, rfl⟩
      rcases List.mem_map.mp hs with ⟨t, ht, rfl⟩
      rcases List.mem_map.mp ht with ⟨l, _, rfl⟩
      exact ⟨rfl, rfl⟩
  · intro r hr
    simp only [preprocess_data] at hr
    rcases List.mem_map.mp hr with ⟨s, _, rfl⟩
    rfl

theorem missing_reference_defaults_witness :
    (((preprocess_data projId [mkListing "L0" 1.3 103.8 7] [] none).rows.get
        ⟨0, by decide⟩).dist_to_hawker = 9999 ∧
      ((preprocess_data projId [mkListing "L0" 1.3 103.8 7] [] none).rows.get
        ⟨0, by decide⟩).is_hawker = false) ∧
    ((preprocess_data projId [mkListing "L0" 1.3 103.8 7] [] none).rows.get
        ⟨0, by decide⟩).planning_area = some "Unknown" :=
  ⟨(missing_reference_defaults projId [mkListing "L0" 1.3 103.8 7] none).1 _
      (List.get_mem _ _ _),
   (missing_reference_defaults projId [mkListing "L0" 1.3 103.8 7] none).2 _
      (List.get_mem _ _ _)⟩

/-- Claim C9 (counterexample): the degradation is silent — for a run with an
empty facility reference and no zone reference the printed output is exactly
the two progress messages; no warning about the missing reference data is
surfaced, contradicting the claim's "surfaced as a warning" part (the feature
defaults themselves do hold, as the second conjunct shows). -/
theorem missing_reference_no_warning :
    (preprocess_data projId [mkListing "L0" 1.3 103.8 7] [] none).log =
      ["Preprocessing data...", "Preprocessing complete."] ∧
    (preprocess_data projId [mkListing "L0" 1.3 103.8 7] [] none).rows.map
      (fun r => (r.dist_to_hawker, r.is_hawker, r.planning_area)) =
      [(9999, false, some "Unknown")] :=
  ⟨rfl, rfl⟩

theorem foldl_fixes_id (name : String) (fs : List (String × ℚ × ℚ)) (a : ℚ × ℚ)
    (h : ∀ f ∈ fs, containsCI name f.1 = false) :
    fs.foldl (fun c f => if containsCI name f.1 then (f.2.1, f.2.2) else c) a = a := by
  induction fs generalizing a with
  | nil => rfl
  | cons f rest ih =>
    have hf := h f (List.mem_cons_self f rest)
    rw [List.foldl_cons]
    simp only [hf, Bool.false_eq_true, if_false]
    exact ih a fun g hg => h g (List.mem_cons_of_mem f hg)

theorem foldl_fixes_const (name : String) (fs : List (String × ℚ × ℚ)) (a b : ℚ × ℚ)
    (h : ∃ f ∈ fs, containsCI name f.1 = true) :
    fs.foldl (fun c f => if containsCI name f.1 then (f.2.1, f.2.2) else c) a =
      fs.foldl (fun c f => if containsCI name f.1 then (f.2.1, f.2.2) else c) b := by
  induction fs generalizing a b with
  | nil => rcases h with ⟨f, hf, _⟩; cases hf
  | cons f rest ih =>
    by_cases hc : containsCI name f.1 = true
    · simp only [List.foldl_cons, hc, if_true]
    · have hcf : containsCI name f.1 = false := by simpa using hc
      rcases h with ⟨g, hg, hgc⟩
      rcases List.mem_cons.mp hg with rfl | hg2
      · exact absurd hgc hc
      · simp only [List.foldl_cons, hcf, Bool.false_eq_true, if_false]
        exact ih a b ⟨g, hg2, hgc⟩

theorem foldl_fixes_mem (name : String) (fs : List (String × ℚ × ℚ)) (a : ℚ × ℚ)
    (h : ∃ f ∈ fs, containsCI name f.1 = true) :
    fs.foldl (fun c f => if containsCI name f.1 then (f.2.1, f.2.2) else c) a ∈
      fs.map (fun f => f.2) := by
  induction fs generalizing a with
  | nil => rcases h with ⟨f, hf, _⟩; cases hf
  | cons f rest ih =>
    by_cases hc : containsCI name f.1 = true
    · simp only [List.foldl_cons, hc, if_true, List.map_cons]
      by_cases hr : ∃ g ∈ rest, containsCI name g.1 = true
      · exact List.mem_cons_of_mem _ (ih _ hr)
      · have hall : ∀ g ∈ rest, containsCI name g.1 = false := by
          intro g hg
          by_contra hgg
          exact hr ⟨g, hg, by simpa using hgg⟩
        rw [foldl_fixes_id name rest _ hall]
        simp
    · have hcf : containsCI name f.1 = false := by simpa using hc
      rcases h with ⟨g, hg, hgc⟩
      rcases List.mem_cons.mp hg with rfl | hg2
      · exact absurd hgc hc
      · simp only [List.foldl_cons, hcf, Bool.false_eq_true, if_false, List.map_cons]
        exact List.mem_cons_of_mem _ (ih a ⟨g, hg2, hgc⟩)

/-- Claim C10: when a zone reference is supplied, a record whose name contains
one of the five fixed substrings (case-insensitively) has its coordinates
overwritten with the corresponding hard-coded constants — the result is one of
the five constant pairs and is independent of the input coordinates — while a
record matching none of the substrings keeps its input coordinates; and the
records leaving `preprocess_data` carry exactly the coordinates produced by
this override step. -/
theorem coordinate_overrides (name : String) (lat lon : ℚ) :
    ((∀ f ∈ coordFixes, containsCI name f.1 = false) →
      applyFixes name lat lon = (lat, lon)) ∧
    ((∃ f ∈ coordFixes, containsCI name f.1 = true) →
      (∀ lat2 lon2 : ℚ, applyFixes name lat lon = applyFixes name lat2 lon2) ∧
      applyFixes name lat lon ∈ coordFixes.map (fun f => f.2)) ∧
    (∀ (proj : GeoPt → Pt) (listings : List Listing) (hawkers : List Pt)
      (zs : List Zone) (i : ℕ) (hi : i < listings.length)
      (hi2 : i < (preprocess_data proj listings hawkers (some zs)).rows.length),
      (((preprocess_data proj listings hawkers (some zs)).rows.get ⟨i, hi2⟩).latitude,
        ((preprocess_data proj listings hawkers (some zs)).rows.get ⟨i, hi2⟩).longitude) =
        applyFixes (listings.get ⟨i, hi⟩).name (listings.get ⟨i, hi⟩).latitude
          (listings.get ⟨i, hi⟩).longitude) := by
  refine ⟨fun h => foldl_fixes_id name coordFixes (lat, lon) h,
    fun h => ⟨fun lat2 lon2 => foldl_fixes_const name coordFixes (lat, lon) (lat2, lon2) h,
      foldl_fixes_mem name coordFixes (lat, lon) h⟩, ?_⟩
  intro proj listings hawkers zs i hi hi2
  simp only [preprocess_data] at hi2 ⊢
  rw [List.get_eq_getElem, List.getElem_map, List.getElem_map, List.getElem_map,
    List.get_eq_getElem]
  simp [assignArea, applyFixRow, baseRow]

theorem coordinate_overrides_witness :
    applyFixes "A" 1.5 104 = (1.5, 104) ∧
    (applyFixes "Luss Restaurant & Bar" 1.5 104 =
        applyFixes "Luss Restaurant & Bar" 0 0 ∧
      applyFixes "Luss Restaurant & Bar" 1.5 104 ∈ coordFixes.map (fun f => f.2)) ∧
    (((preprocess_data projId [mkListing "A" 1.3 103.8 7] [] (some [zoneX])).rows.get
        ⟨0, by decide⟩).latitude,
      ((preprocess_data projId [mkListing "A" 1.3 103.8 7] [] (some [zoneX])).rows.get
        ⟨0, by decide⟩).longitude) = applyFixes "A" 1.3 103.8 :=
  ⟨(coordinate_overrides "A" 1.5 104).1 (by decide),
   ⟨((coordinate_overrides "Luss Restaurant & Bar" 1.5 104).2.1 (by decide)).1 0 0,
    ((coordinate_overrides "Luss Restaurant & Bar" 1.5 104).2.1 (by decide)).2⟩,
   (coordinate_overrides "A" 1.3 103.8).2.2 projId [mkListing "A" 1.3 103.8 7] []
      [zoneX] 0 (by decide) (by decide)⟩

theorem find?_cons_pos (p : Row → Bool) (a : Row) (l : List Row) (h : p a = true) :
    (a :: l).find? p = some a := List.find?_cons_of_pos l h

theorem find?_cons_neg (p : Row → Bool) (a : Row) (l : List Row) (h : ¬(p a = true)) :
    (a :: l).find? p = l.find? p := List.find?_cons_of_neg l h

theorem insertRow_perm (r : Row) (L : List Row) : (insertRow r L).Perm (r :: L) := by
  induction L with
  | nil => exact List.Perm.refl _
  | cons b rest ih =>
    unfold insertRow
    by_cases h : r.review_count < b.review_count
    · rw [if_pos h]
      exact (ih.cons b).trans (List.Perm.swap r b rest)
    · rw [if_neg h]

theorem sortByReviews_perm (L : List Row) : (sortByReviews L).Perm L := by
  induction L with
  | nil => exact List.Perm.refl _
  | cons r rest ih => exact (insertRow_perm r (sortByReviews rest)).trans (ih.cons r)

theorem mem_of_mem_dedupGo {a : Row} {seen : List String} {L : List Row}
    (h : a ∈ dedupGo seen L) : a ∈ L := by
  induction L generalizing seen with
  | nil => cases h
  | cons r rest ih =>
    unfold dedupGo at h
    by_cases hs : r.name ∈ seen
    · rw [if_pos hs] at h
      exact List.mem_cons_of_mem r (ih h)
    · rw [if_neg hs] at h
      rcases List.mem_cons.mp h with rfl | h2
      · exact List.mem_cons_self a rest
      · exact List.mem_cons_of_mem r (ih h2)

theorem sortedDesc_insertRow {r : Row} {L : List Row} (h : SortedDesc L) :
    SortedDesc (insertRow r L) := by
  induction L with
  | nil =>
    unfold insertRow SortedDesc
    exact List.pairwise_singleton _ r
  | cons b rest ih =>
    obtain ⟨hb, hrest⟩ := List.pairwise_cons.mp h
    unfold insertRow
    by_cases hc : r.review_count < b.review_count
    · rw [if_pos hc]
      unfold SortedDesc
      rw [List.pairwise_cons]
      refine ⟨?_, ih hrest⟩
      intro x hx
      rcases List.mem_cons.mp ((insertRow_perm r rest).mem_iff.mp hx) with rfl | hx2
      · exact le_of_lt hc
      · exact hb x hx2
    · rw [if_neg hc]
      unfold SortedDesc
      rw [List.pairwise_cons]
      refine ⟨?_, h⟩
      intro x hx
      rcases List.mem_cons.mp hx with rfl | hx2
      · exact not_lt.mp hc
      · exact le_trans (hb x hx2) (not_lt.mp hc)

theorem sortedDesc_sortByReviews (L : List Row) : SortedDesc (sortByReviews L) := by
  induction L with
  | nil => exact List.Pairwise.nil
  | cons r rest ih => exact sortedDesc_insertRow ih

theorem maxReviews_cons (a : Row) (as : List Row) :
    maxReviews (a :: as) = max a.review_count (maxReviews as) := rfl

theorem le_maxReviews {x : Row} {g : List Row} (hx : x ∈ g) :
    x.review_count ≤ maxReviews g := by
  induction g with
  | nil => cases hx
  | cons a as ih =>
    rw [maxReviews_cons]
    rcases List.mem_cons.mp hx with rfl | h2
    · exact le_max_left _ _
    · exact le_trans (ih h2) (le_max_right _ _)

theorem maxReviews_le {g : List Row} {m : ℕ} (h : ∀ x ∈ g, x.review_count ≤ m) :
    maxReviews g ≤ m := by
  induction g with
  | nil => exact Nat.zero_le m
  | cons a as ih =>
    rw [maxReviews_cons]
    exact max_le (h a (List.mem_cons_self a as))
      (ih fun x hx => h x (List.mem_cons_of_mem a hx))

theorem find?_dedupGo (n : String) (seen : List String) (L : List Row)
    (hn : n ∉ seen) :
    (dedupGo seen L).find? (fun r => r.name == n) =
      L.find? (fun r => r.name == n) := by
  induction L generalizing seen with
  | nil => rfl
  | cons r rest ih =>
    unfold dedupGo
    by_cases hs : r.name ∈ seen
    · rw [if_pos hs]
      have hrn : ¬((fun r => r.name == n) r = true) := by
        simp only [beq_iff_eq]
        intro he
        exact hn (he ▸ hs)
      rw [ih seen hn, find?_cons_neg _ r rest hrn]
    · rw [if_neg hs]
      by_cases hrn : ((fun r => r.name == n) r = true)
      · rw [find?_cons_pos _ r (dedupGo (r.name :: seen) rest) hrn,
          find?_cons_pos _ r rest hrn]
      · rw [find?_cons_neg _ r (dedupGo (r.name :: seen) rest) hrn,
          find?_cons_neg _ r rest hrn]
        apply ih
        intro hmem
        rcases List.mem_cons.mp hmem with he | h2
        · exact hrn (beq_iff_eq.mpr he.symm)
        · exact hn h2

theorem dedupGo_names_fresh {seen : List String} {L : List Row} {r : Row}
    (h : r ∈ dedupGo seen L) : r.name ∉ seen := by
  induction L generalizing seen with
  | nil => cases h
  | cons b rest ih =>
    unfold dedupGo at h
    by_cases hs : b.name ∈ seen
    · rw [if_pos hs] at h
      exact ih h
    · rw [if_neg hs] at h
      rcases List.mem_cons.mp h with rfl | h2
      · exact hs
      · intro hmem
        exact ih h2 (List.mem_cons_of_mem _ hmem)

theorem dedupGo_names_nodup (seen : List String) (L : List Row) :
    ((dedupGo seen L).map (fun r => r.name)).Nodup := by
  induction L generalizing seen with
  | nil => exact List.Pairwise.nil
  | cons b rest ih =>
    unfold dedupGo
    by_cases hs : b.name ∈ seen
    · rw [if_pos hs]
      exact ih seen
    · rw [if_neg hs]
      rw [List.map_cons, List.nodup_cons]
      refine ⟨?_, ih _⟩
      intro hmem
      rcases List.mem_map.mp hmem with ⟨r, hr, he⟩
      exact dedupGo_names_fresh hr (he ▸ List.mem_cons_self _ _)

theorem find?_max_of_sorted {S : List Row} {p : Row → Bool} {w : Row}
    (hsort : SortedDesc S) (hw : S.find? p = some w) :
    ∀ x ∈ S, p x = true → x.review_count ≤ w.review_count := by
  induction S with
  | nil => cases hw
  | cons a S2 ih =>
    obtain ⟨ha, hS2⟩ := List.pairwise_cons.mp hsort
    by_cases hpa : p a = true
    · rw [find?_cons_pos p a S2 hpa] at hw
      have haw : a = w := by injection hw
      subst haw
      intro x hx _
      rcases List.mem_cons.mp hx with rfl | hx2
      · exact le_refl _
      · exact ha x hx2
    · rw [find?_cons_neg p a S2 hpa] at hw
      intro x hx hpx
      rcases List.mem_cons.mp hx with rfl | hx2
      · exact absurd hpx hpa
      · exact ih hS2 hw x hx2 hpx

/-- Claim C4 (amended): deduplication groups by exact name, and for EVERY
admissible outcome of the review-count sort — any descending reordering of the
input, which is all `sort_values` with its default (unstable) quicksort
guarantees — dropping duplicate names keeps exactly one record per unique
name, and that record carries the maximal `review_count` of its name group.
Which of several listings tying on the group maximum survives is not
determined by the program: the tie order of the unstable sort is unspecified,
so the claim's first-encountered tie rule is dropped. -/
theorem dedup_by_name (rs sorted : List Row) (n : String)
    (hadm : SortValuesDescSpec rs sorted) :
    ((dedupGo [] sorted).map (fun r => r.name)).Nodup ∧
    (∀ w, (dedupGo [] sorted).find? (fun r => r.name == n) = some w →
      w.name = n ∧ w ∈ rs ∧
      w.review_count = maxReviews (rs.filter (fun r => r.name == n))) ∧
    (rs.filter (fun r => r.name == n) ≠ [] →
      ∃ w, (dedupGo [] sorted).find? (fun r => r.name == n) = some w) := by
  obtain ⟨hperm, hsort⟩ := hadm
  refine ⟨dedupGo_names_nodup [] sorted, ?_, ?_⟩
  · intro w hw
    rw [find?_dedupGo n [] sorted (List.not_mem_nil n)] at hw
    have hwmem : w ∈ sorted := List.mem_of_find?_eq_some hw
    have hwp := List.find?_some hw
    refine ⟨beq_iff_eq.mp hwp, hperm.mem_iff.mp hwmem, le_antisymm ?_ ?_⟩
    · exact le_maxReviews (List.mem_filter.mpr ⟨hperm.mem_iff.mp hwmem, hwp⟩)
    · apply maxReviews_le
      intro x hx
      have hx2 := List.mem_filter.mp hx
      exact find?_max_of_sorted hsort hw x (hperm.mem_iff.mpr hx2.1) hx2.2
  · intro hne
    rw [find?_dedupGo n [] sorted (List.not_mem_nil n)]
    rcases List.exists_mem_of_ne_nil _ hne with ⟨x, hx⟩
    have hx2 := List.mem_filter.mp hx
    exact Option.isSome_iff_exists.mp
      (List.find?_isSome.mpr ⟨x, hperm.mem_iff.mpr hx2.1, hx2.2⟩)

theorem dedup_by_name_witness :
    ((dedupGo [] (sortByReviews [mkRow "A" 1 50, mkRow "A" 1.3 50, mkRow "B" 1.3 5])).map
      (fun r => r.name)).Nodup ∧
    ((mkRow "A" 1 50).name = "A" ∧
      mkRow "A" 1 50 ∈ [mkRow "A" 1 50, mkRow "A" 1.3 50, mkRow "B" 1.3 5] ∧
      (mkRow "A" 1 50).review_count =
        maxReviews ([mkRow "A" 1 50, mkRow "A" 1.3 50, mkRow "B" 1.3 5].filter
          (fun r => r.name == "A"))) :=
  ⟨(dedup_by_name [mkRow "A" 1 50, mkRow "A" 1.3 50, mkRow "B" 1.3 5]
      (sortByReviews [mkRow "A" 1 50, mkRow "A" 1.3 50, mkRow "B" 1.3 5]) "A"
      ⟨sortByReviews_perm _, sortedDesc_sortByReviews _⟩).1,
   (dedup_by_name [mkRow "A" 1 50, mkRow "A" 1.3 50, mkRow "B" 1.3 5]
      (sortByReviews [mkRow "A" 1 50, mkRow "A" 1.3 50, mkRow "B" 1.3 5]) "A"
      ⟨sortByReviews_perm _, sortedDesc_sortByReviews _⟩).2.1 (mkRow "A" 1 50) rfl⟩

/-- Claim C4 (counterexample): the first-encountered tie rule is not a
property of the program.  For the input `[r1, r2]` with `r1` first-encountered
and both records named "A" with review_count 50, the reversed list `[r2, r1]`
is an admissible outcome of the review-count sort (it is a descending
reordering — the unstable default quicksort specifies nothing more about tied
keys), and dropping duplicate names on it retains `r2`, which differs from the
first-encountered `r1`. -/
theorem dedup_tie_break_unspecified :
    SortValuesDescSpec
      [mkRow "A" 1.3 50, { mkRow "A" 1.3 50 with cluster_density := 1 }]
      [{ mkRow "A" 1.3 50 with cluster_density := 1 }, mkRow "A" 1.3 50] ∧
    (dedupGo [] [{ mkRow "A" 1.3 50 with cluster_density := 1 }, mkRow "A" 1.3 50]).find?
        (fun r => r.name == "A") =
      some { mkRow "A" 1.3 50 with cluster_density := 1 } ∧
    { mkRow "A" 1.3 50 with cluster_density := 1 } ≠ mkRow "A" 1.3 50 :=
  ⟨⟨List.Perm.swap _ _ [], by
      unfold SortedDesc
      refine List.Pairwise.cons ?_ (List.pairwise_singleton _ _)
      intro x hx
      rcases List.mem_cons.mp hx with rfl | h2
      · exact le_refl _
      · cases h2⟩,
   rfl,
   fun h => absurd (congrArg Row.cluster_density h) (by decide)⟩

theorem scenario_pipeline (lo la : ℚ) (proj : GeoPt → Pt) (X : Zone)
    (hx : X.containsGeo ⟨lo, la⟩ = true)
    (h1 : 1.15 ≤ la) (h2 : la ≤ 1.47) (h3 : 103.6 ≤ lo) (h4 : lo ≤ 104.05) :
    (pipeline proj (scenarioAt lo la) [] (some [X])).map rowView =
      [("A", 50, some X.name, 2), ("B", 5, some X.name, 2)] := by
  have hfind : [X].find? (fun w => w.containsGeo (⟨lo, la⟩ : GeoPt)) = some X :=
    List.find?_cons_of_pos [] hx
  have hnotcut : ¬((la : ℚ) > 1.47) := not_lt.mpr h2
  have hbb : inBBox (⟨lo, la⟩ : GeoPt) = true := by
    simp only [inBBox, Bool.and_eq_true, decide_eq_true_eq]
    exact ⟨⟨⟨h1, le_trans h2 (by norm_num)⟩, h3⟩, h4⟩
  have hdens : clusterDensity [proj ⟨lo, la⟩, proj ⟨lo, la⟩, proj ⟨lo, la⟩]
      (proj ⟨lo, la⟩) = 2 := by
    norm_num [clusterDensity, List.filter_cons, List.filter_nil, sqDist_self]
  have hfixA : applyFixes "A" la lo = (la, lo) := rfl
  have hfixB : applyFixes "B" la lo = (la, lo) := rfl
  have hAB : ("A" = "B") = False := eq_false (by decide)
  have hBA : ("B" = "A") = False := eq_false (by decide)
  simp only [pipeline, preprocess_data, scenarioAt, mkListing, List.map_cons,
    List.map_nil, baseRow, applyFixRow, hfixA, hfixB, assignArea, resolveArea, hfind,
    hnotcut, load_data, dedupByName, overrideGeom, List.filter_cons, List.filter_nil,
    hbb, sortByReviews, insertRow, dedupGo, hdens, rowView, if_true, if_false, hAB, hBA]
  simp [rowView, hAB, hBA]

/-- Claim C1 (amended): spec scenario 1 end to end — three listings "A", "A",
"B" with review counts 10, 50, 5, all at one geographic point inside zone `X`
(a point inside the bounding box and below the hard latitude cutoff): the
final output has exactly the two restaurants "A" with review_count 50 and "B"
with review_count 5, both with planning_area "X", and both with
cluster_density 2 — not 1: deduplication runs in the front-end loader, after
cluster density was computed on the raw corpus, so the duplicate listing
inflates the density count. -/
theorem scenario_one (lo la : ℚ) (proj : GeoPt → Pt) (X : Zone)
    (hx : X.containsGeo ⟨lo, la⟩ = true)
    (h1 : 1.15 ≤ la) (h2 : la ≤ 1.47) (h3 : 103.6 ≤ lo) (h4 : lo ≤ 104.05) :
    (pipeline proj (scenarioAt lo la) [] (some [X])).map rowView =
      [("A", 50, some X.name, 2), ("B", 5, some X.name, 2)] :=
  scenario_pipeline lo la proj X hx h1 h2 h3 h4

theorem scenario_one_witness :
    (pipeline projId (scenarioAt 103.8 1.3) [] (some [zoneX])).map rowView =
      [("A", 50, some "X", 2), ("B", 5, some "X", 2)] :=
  scenario_one 103.8 1.3 projId zoneX rfl (by norm_num) (by norm_num) (by norm_num)
    (by norm_num)

/-- Claim C1 (counterexample): at the concrete scenario instance (the point
(103.8, 1.3) inside the everywhere-containing zone "X") the two output
restaurants carry cluster_density 2, not 1 — deduplication does not happen
before the density computation, so the duplicate "A" listing inflates the
count. -/
theorem scenario_one_counterexample :
    (pipeline projId (scenarioAt 103.8 1.3) [] (some [zoneX])).map rowView =
      [("A", 50, some "X", 2), ("B", 5, some "X", 2)] ∧
    (pipeline projId (scenarioAt 103.8 1.3) [] (some [zoneX])).map rowView ≠
      [("A", 50, some "X", 1), ("B", 5, some "X", 1)] := by
  have h : (pipeline projId (scenarioAt 103.8 1.3) [] (some [zoneX])).map rowView =
      [("A", 50, some "X", 2), ("B", 5, some "X", 2)] :=
    scenario_pipeline 103.8 1.3 projId zoneX rfl (by norm_num) (by norm_num)
      (by norm_num) (by norm_num)
  refine ⟨h, ?_⟩
  rw [h]
  decide

/-- Claim C2 (amended): the bounding-box filter lives in the front-end
loader, after preprocessing — every record `load_data` returns lies inside the
box (the filter precedes deduplication inside the loader), but
`preprocess_data`, which performs zone resolution, drops no record, so zone
resolution is attempted on out-of-bounds listings too. -/
theorem bbox_filter_in_loader (rows : List Row) (r : Row) (proj : GeoPt → Pt)
    (listings : List Listing) (hawkers : List Pt) (pas : Option (List Zone))
    (hr : r ∈ load_data rows) :
    inBBox r.geometry = true ∧
    (preprocess_data proj listings hawkers pas).rows.length = listings.length := by
  constructor
  · unfold load_data dedupByName at hr
    have hf := List.of_mem_filter ((sortByReviews_perm _).mem_iff.mp (mem_of_mem_dedupGo hr))
    simpa using hf
  · cases pas <;> simp [preprocess_data]

theorem bbox_filter_in_loader_witness :
    inBBox (mkRow "A" 1.3 50).geometry = true ∧
    (preprocess_data projId [mkListing "L0" 1.3 103.8 7] [] (some [zoneX])).rows.length =
      [mkListing "L0" 1.3 103.8 7].length := by
  have hb : inBBox (mkRow "A" 1.3 50).geometry = true := by
    norm_num [inBBox, mkRow]
  have hload : load_data [mkRow "A" 1.3 50] = [mkRow "A" 1.3 50] := by
    unfold load_data dedupByName
    rw [List.map_cons, List.map_nil,
      show overrideGeom (mkRow "A" 1.3 50) = mkRow "A" 1.3 50 from rfl,
      List.filter_cons, if_pos hb]
    rfl
  exact bbox_filter_in_loader [mkRow "A" 1.3 50] (mkRow "A" 1.3 50) projId
    [mkListing "L0" 1.3 103.8 7] [] (some [zoneX])
    (by rw [hload]; exact List.mem_cons_self _ _)

/-- Claim C2 (counterexample): a listing at latitude 1.6 — outside the
bounding box — is not excluded before zone resolution: `preprocess_data`,
which performs the spatial join, its fallbacks and the hard cutoff, still
processes the listing and assigns it a planning area (the sentinel); only the
front-end loader afterwards removes it, so the exclusion happens after zone
resolution, not before. -/
theorem bbox_after_resolution :
    (preprocess_data projId [mkListing "Far" 1.6 103.8 7] [] (some [zoneFar])).rows.map
      (fun r => (r.name, r.planning_area)) = [("Far", some "Outside Singapore")] ∧
    pipeline projId [mkListing "Far" 1.6 103.8 7] [] (some [zoneFar]) = [] := by
  have hcut : ((1.6 : ℚ) > 1.47) = True := eq_true (by norm_num)
  have hfixF : applyFixes "Far" 1.6 103.8 = (1.6, 103.8) := rfl
  have hbb : inBBox (⟨103.8, 1.6⟩ : GeoPt) = false := by
    norm_num [inBBox]
  constructor
  · simp only [preprocess_data, List.map_cons, List.map_nil, baseRow, applyFixRow,
      hfixF, assignArea, mkListing, hcut, if_true]
  · simp only [pipeline, preprocess_data, load_data, dedupByName, List.map_cons,
      List.map_nil, baseRow, applyFixRow, hfixF, assignArea, mkListing, overrideGeom,
      List.filter_cons, List.filter_nil, hbb, hcut, if_true, sortByReviews, dedupGo]

end ShiokScout
